import Mathlib

set_option maxRecDepth 8000
set_option maxHeartbeats 1000000

/-!
Shallow embedding of the scanpy-based PBMC3k analysis notebook
`03_pbmc_colab_annotation.ipynb`.

The annotated expression matrix (`AnnData`) is modelled as a row-major
list of lists (rows = cells/observations, columns = genes/features)
together with the per-observation metadata table `obs`, the per-feature
metadata table `var`, and the unstructured results store `uns`.

Each library call of the notebook is embedded as a function on this
structure, following the library's documented semantics at the exact
parameter values the notebook uses.  Purely numerical internals that the
notebook delegates wholesale to the library (the dispersion computation
behind `highly_variable_genes`, the Leiden community labels, the
differential-expression statistics) are taken as parameters of the
corresponding stage functions, since no claim depends on their values,
only on how their results are stored and used.
-/

/-- Per-observation (cell) metadata row.  Fields start absent (`none`)
and are filled in by the pipeline stages that compute them. -/
structure Obs where
  n_genes : Option Nat := none
  n_genes_by_counts : Option Nat := none
  total_counts : Option Rat := none
  pct_counts_mt : Option Rat := none
  leiden : Option String := none
  cell_type : Option String := none
deriving DecidableEq

/-- Per-feature (gene) metadata row. -/
structure Var where
  name : String
  mt : Option Bool := none
  n_cells : Option Nat := none
  highly_variable : Option Bool := none
deriving DecidableEq

/-- A differential-expression result as stored in `adata.uns` by
`sc.tl.rank_genes_groups`: the test method together with the ranked gene
names per cluster group. -/
structure DEResult where
  method : String
  names : List (String × List String)
deriving DecidableEq

/-- The annotated matrix: expression matrix `X`, cell table `obs`, gene
table `var`, and unstructured results `uns`. -/
structure AnnData (α : Type) where
  X : List (List α)
  obs : List Obs
  var : List Var
  uns : List (String × DEResult)
deriving DecidableEq

/-- Number of nonzero entries of a row/column (the sparse-matrix
`nnz` count scanpy's filters and QC metrics are based on). -/
def countNonzero (r : List Rat) : Nat :=
  (r.filter (fun x => decide (x ≠ 0))).length

/-- Column `j` of a row-major matrix (missing entries read as 0). -/
def column {α : Type} [Zero α] (X : List (List α)) (j : Nat) : List α :=
  X.map (fun r => r.getD j 0)

/-- Keep the entries of `l` whose position is marked `true` in `mask`
(boolean-mask indexing along one axis). -/
def keepCols {β : Type} (mask : List Bool) (l : List β) : List β :=
  ((l.zip mask).filter (fun p => p.2)).map Prod.fst

/-- Number of `true` entries of a boolean mask. -/
def countTrue (mask : List Bool) : Nat := (mask.filter id).length

/-- `sc.pp.filter_cells(adata, min_genes=200)`: keep the cells with at
least `min_genes` detected (nonzero) genes and record the detected-gene
number in `obs.n_genes`. -/
def sc_pp_filter_cells (min_genes : Nat) (a : AnnData Rat) : AnnData Rat :=
  let kept := (a.X.zip a.obs).filter (fun p => decide (min_genes ≤ countNonzero p.1))
  { a with X := kept.map Prod.fst
         , obs := kept.map (fun p => { p.2 with n_genes := some (countNonzero p.1) }) }

/-- Per-gene detection counts: for each gene index, in how many of the
current cells it has a nonzero entry. -/
def geneCounts (a : AnnData Rat) : List Nat :=
  (List.range a.var.length).map (fun j => countNonzero (column a.X j))

/-- `sc.pp.filter_genes(adata, min_cells=3)`: keep the genes detected in
at least `min_cells` cells and record the count in `var.n_cells`. -/
def sc_pp_filter_genes (min_cells : Nat) (a : AnnData Rat) : AnnData Rat :=
  let counts := geneCounts a
  let mask := counts.map (fun c => decide (min_cells ≤ c))
  { a with X := a.X.map (keepCols mask)
         , var := keepCols mask (List.zipWith (fun v c => { v with n_cells := some c }) a.var counts) }

/-- The string test `.str.startswith('MT-')`, written structurally on
the character list of the name. -/
def mtPrefixTest (s : String) : Bool :=
  decide (s.data.take 3 = ['M', 'T', '-'])

/-- `adata.var['mt'] = adata.var_names.str.startswith('MT-')`. -/
def markMito (a : AnnData Rat) : AnnData Rat :=
  { a with var := a.var.map (fun v => { v with mt := some (mtPrefixTest v.name) }) }

/-- Total counts of a cell over the mitochondrial genes. -/
def mtSum (var : List Var) (r : List Rat) : Rat :=
  (((r.zip var).filter (fun p => p.2.mt = some true)).map Prod.fst).sum

/-- The per-cell metrics written by `sc.pp.calculate_qc_metrics`:
`n_genes_by_counts` (genes with at least one count), `total_counts`,
and `pct_counts_mt` (percentage of counts in mitochondrial genes).
A zero-total cell has an undefined (NaN) percentage, modelled as `none`;
a NaN compares false against every bound, exactly as in the library.
The per-gene metric columns of `calculate_qc_metrics` are not used by
any later step of the notebook and are not tracked. -/
def mkQCObs (var : List Var) (r : List Rat) (o : Obs) : Obs :=
  { o with n_genes_by_counts := some (countNonzero r)
         , total_counts := some r.sum
         , pct_counts_mt := if r.sum = 0 then none else some (100 * mtSum var r / r.sum) }

/-- `sc.pp.calculate_qc_metrics(adata, qc_vars=['mt'], ...)` restricted
to the per-cell columns the notebook later reads. -/
def sc_pp_calculate_qc_metrics (a : AnnData Rat) : AnnData Rat :=
  { a with obs := (a.X.zip a.obs).map (fun p => mkQCObs a.var p.1 p.2) }

/-- Observation slicing `adata = adata[pred(adata.obs), :]`: keep the
cells whose metadata satisfies `pred`, consistently in `X` and `obs`. -/
def sliceCells {α : Type} (pred : Obs → Bool) (a : AnnData α) : AnnData α :=
  let kept := (a.X.zip a.obs).filter (fun p => pred p.2)
  { a with X := kept.map Prod.fst, obs := kept.map Prod.snd }

/-- The predicate of `adata.obs.n_genes_by_counts < 2500` (an absent
value compares false). -/
def ngLt2500 (o : Obs) : Bool :=
  match o.n_genes_by_counts with
  | some n => decide (n < 2500)
  | none => false

/-- The predicate of `adata.obs.pct_counts_mt < 5` (a NaN / absent value
compares false). -/
def pctLt5 (o : Obs) : Bool :=
  match o.pct_counts_mt with
  | some p => decide (p < 5)
  | none => false

/-- The complete QC filtering stage of the notebook, in source order:
`filter_cells(min_genes=200)`, `filter_genes(min_cells=3)`, the `mt`
flag, `calculate_qc_metrics`, then the two observation slicings
`n_genes_by_counts < 2500` and `pct_counts_mt < 5`. -/
def qcStage (a : AnnData Rat) : AnnData Rat :=
  sliceCells pctLt5
    (sliceCells ngLt2500
      (sc_pp_calculate_qc_metrics
        (markMito
          (sc_pp_filter_genes 3
            (sc_pp_filter_cells 200 a)))))

/-- One cell of `sc.pp.normalize_total`: a cell with positive counts is
rescaled so that its total equals `target`; a zero-total cell is left
unchanged (the library skips such cells). -/
def normalizeRow (target : Rat) (r : List Rat) : List Rat :=
  if r.sum = 0 then r else r.map (fun x => x * (target / r.sum))

/-- `sc.pp.normalize_total(adata, target_sum=1e4)` (for the notebook,
`target = 10000`). -/
def sc_pp_normalize_total (target : Rat) (a : AnnData Rat) : AnnData Rat :=
  { a with X := a.X.map (normalizeRow target) }

/-- `sc.pp.log1p(adata)`: the entrywise natural-log transform
`x ↦ log (1 + x)`, carried out in the reals. -/
noncomputable def sc_pp_log1p (a : AnnData Rat) : AnnData Real :=
  { X := a.X.map (fun r => r.map (fun x : Rat => Real.log (1 + (x : Real))))
  , obs := a.obs, var := a.var, uns := a.uns }

/-- The notebook's normalization stage: rescale to a common total of
10000, then log-transform — in that order. -/
noncomputable def normalizationStage (a : AnnData Rat) : AnnData Real :=
  sc_pp_log1p (sc_pp_normalize_total 10000 a)

/-- `sc.pp.highly_variable_genes(adata, min_mean=0.0125, max_mean=3,
min_disp=0.5)`: writes the boolean `highly_variable` column of `var`.
The dispersion statistic deciding each flag is computed inside the
external library; it enters the embedding as the flag vector `flags`. -/
def sc_pp_highly_variable_genes {α : Type} (flags : Nat → Bool) (a : AnnData α) : AnnData α :=
  { a with var := a.var.enum.map (fun p => { p.2 with highly_variable := some (flags p.1) }) }

/-- Boolean gene mask `adata.var.highly_variable`. -/
def hvMask {α : Type} (a : AnnData α) : List Bool :=
  a.var.map (fun v => decide (v.highly_variable = some true))

/-- The feature-selection slicing `adata = adata[:, adata.var.highly_variable]`:
keep exactly the flagged genes, consistently in `X` and `var`. -/
def hvgSlice {α : Type} (a : AnnData α) : AnnData α :=
  { a with X := a.X.map (keepCols (hvMask a)), var := keepCols (hvMask a) a.var }

/-- Column mean used by `sc.pp.scale`. -/
noncomputable def colMean (col : List Real) : Real := col.sum / col.length

/-- Column variance used by `sc.pp.scale` (mean of squares minus squared
mean, with the ddof-1 correction factor `n/(n-1)`). -/
noncomputable def colVariance (col : List Real) : Real :=
  ((col.map (fun x => x ^ 2)).sum / col.length - colMean col ^ 2) *
    ((col.length : Real) / ((col.length : Real) - 1))

/-- The per-gene standard deviation used by `sc.pp.scale`; a zero
standard deviation is replaced by 1 so that constant genes stay finite. -/
noncomputable def stdAdj (col : List Real) : Real :=
  if Real.sqrt (colVariance col) = 0 then 1 else Real.sqrt (colVariance col)

/-- One entry of `sc.pp.scale(..., max_value=m)`: center and divide by
the standard deviation, then clip values exceeding `m` down to `m`. -/
noncomputable def scaleEntry (col : List Real) (max_value x : Real) : Real :=
  if max_value < (x - colMean col) / stdAdj col then max_value
  else (x - colMean col) / stdAdj col

/-- `sc.pp.scale(adata, max_value=10)` (for the notebook, `max_value = 10`). -/
noncomputable def sc_pp_scale (max_value : Real) (a : AnnData Real) : AnnData Real :=
  { a with X := a.X.map (fun r => r.enum.map (fun p => scaleEntry (column a.X p.1) max_value p.2)) }

/-- `sc.tl.leiden(adata)`: writes the per-cell cluster identifier column
`obs.leiden`.  The community labels are computed by the external Leiden
implementation; they enter the embedding as the label vector `lab`. -/
def sc_tl_leiden {α : Type} (lab : Nat → String) (a : AnnData α) : AnnData α :=
  { a with obs := a.obs.enum.map (fun p => { p.2 with leiden := some (lab p.1) }) }

/-- Update-or-insert into the `uns` association list (Python dict
assignment `adata.uns[key] = value`). -/
def unsSet (k : String) (v : DEResult) : List (String × DEResult) → List (String × DEResult)
  | [] => [(k, v)]
  | (k', v') :: t => if k' = k then (k, v) :: t else (k', v') :: unsSet k v t

/-- `sc.tl.rank_genes_groups(adata, 'leiden', ..., key_added=key_added)`:
stores the differential-expression result (computed by the external
library, parameter `res`) under `adata.uns[key_added]` and touches
nothing else.  The default `key_added` of the library is
`"rank_genes_groups"`, which is what the notebook's first (t-test) call
uses. -/
def sc_tl_rank_genes_groups {α : Type} (key_added : String) (res : DEResult) (a : AnnData α) : AnnData α :=
  { a with uns := unsSet key_added res a.uns }

/-- The hand-authored cluster-to-cell-type mapping of the notebook. -/
def cluster_annotations : List (String × String) :=
  [ ("0", "Naive T cells")
  , ("1", "Memory T cells")
  , ("2", "B cells")
  , ("3", "NK cells")
  , ("4", "Monocytes") ]

/-- Dictionary lookup underlying `adata.obs['leiden'].map(cluster_annotations)`:
a key present in the mapping yields its value, an absent key yields a
missing value (`none`, pandas NaN). -/
def annLookup (k : String) : Option String := cluster_annotations.lookup k

/-- `adata.obs['cell_type'] = adata.obs['leiden'].map(cluster_annotations).astype('category')`. -/
def annotateClusters {α : Type} (a : AnnData α) : AnnData α :=
  { a with obs := a.obs.map (fun o => { o with cell_type := o.leiden.bind annLookup }) }

/-- Run a list of fallible steps in sequence, stopping at the first
error — the execution model of a straight-line notebook whose cells can
raise. -/
def runSteps {σ ε : Type} : List (σ → Except ε σ) → σ → Except ε σ
  | [], s => Except.ok s
  | f :: fs, s =>
    match f s with
    | Except.error e => Except.error e
    | Except.ok s' => runSteps fs s'

/-- The nine stages of the notebook, each a call into the external
library that may fail (missing package, malformed dataset, empty result
after filtering, ...). -/
structure NotebookImpl (σ ε : Type) where
  load : σ → Except ε σ
  qc : σ → Except ε σ
  normalize : σ → Except ε σ
  featureSelect : σ → Except ε σ
  reduce : σ → Except ε σ
  cluster : σ → Except ε σ
  visualize : σ → Except ε σ
  rankGenes : σ → Except ε σ
  annotate : σ → Except ε σ

/-- The notebook's cells in source order. -/
def notebookSteps {σ ε : Type} (m : NotebookImpl σ ε) : List (σ → Except ε σ) :=
  [m.load, m.qc, m.normalize, m.featureSelect, m.reduce, m.cluster, m.visualize, m.rankGenes, m.annotate]

/-- Executing the notebook top to bottom: a plain sequence of the stage
calls, with no surrounding recovery, retry, or validation logic. -/
def notebookRun {σ ε : Type} (m : NotebookImpl σ ε) (s : σ) : Except ε σ :=
  runSteps (notebookSteps m) s

/-- Structural invariant of the annotated matrix: the cell table has one
row per matrix row and the gene table one row per matrix column. -/
def wellFormed {α : Type} (a : AnnData α) : Prop :=
  a.obs.length = a.X.length ∧ ∀ r ∈ a.X, r.length = a.var.length

instance wellFormedDecidable {α : Type} (a : AnnData α) : Decidable (wellFormed a) := by
  unfold wellFormed
  exact inferInstance

/-- Pipeline state after the QC filtering stage. -/
def stage1 (a : AnnData Rat) : AnnData Rat := qcStage a

/-- Pipeline state after total-count normalization. -/
def stage2 (a : AnnData Rat) : AnnData Rat := sc_pp_normalize_total 10000 (stage1 a)

/-- Pipeline state after the log transform. -/
noncomputable def stage3 (a : AnnData Rat) : AnnData Real := sc_pp_log1p (stage2 a)

/-- Pipeline state after highly-variable-gene selection and slicing. -/
noncomputable def stage4 (flags : Nat → Bool) (a : AnnData Rat) : AnnData Real :=
  hvgSlice (sc_pp_highly_variable_genes flags (stage3 a))

/-- Pipeline state after scaling (the input of PCA). -/
noncomputable def stage5 (flags : Nat → Bool) (a : AnnData Rat) : AnnData Real :=
  sc_pp_scale 10 (stage4 flags a)

/-- Pipeline state after clustering. -/
noncomputable def stage6 (flags : Nat → Bool) (lab : Nat → String) (a : AnnData Rat) : AnnData Real :=
  sc_tl_leiden lab (stage5 flags a)

/-- Pipeline state after the two differential-expression calls. -/
noncomputable def stage7 (flags : Nat → Bool) (lab : Nat → String) (tRes wRes : DEResult) (a : AnnData Rat) : AnnData Real :=
  sc_tl_rank_genes_groups "wilcoxon_rank_genes_groups" wRes
    (sc_tl_rank_genes_groups "rank_genes_groups" tRes (stage6 flags lab a))

/-- Final pipeline state, after cluster annotation. -/
noncomputable def stage8 (flags : Nat → Bool) (lab : Nat → String) (tRes wRes : DEResult) (a : AnnData Rat) : AnnData Real :=
  annotateClusters (stage7 flags lab tRes wRes a)

/-- The QC claim exactly as the specification states it: on the final
matrix of the QC stage, every retained cell has at least 200 detected
genes, fewer than 2500 detected genes and a mitochondrial percentage
below 5, and every retained gene is detected in at least 3 cells. -/
def qcClaimHolds (a : AnnData Rat) : Prop :=
  (∀ p ∈ (qcStage a).X.zip (qcStage a).obs,
      200 ≤ countNonzero p.1 ∧ countNonzero p.1 < 2500 ∧ pctLt5 p.2 = true)
  ∧ ∀ j ∈ List.range (qcStage a).var.length,
      3 ≤ countNonzero (column (qcStage a).X j)

instance qcClaimHoldsDecidable (a : AnnData Rat) : Decidable (qcClaimHolds a) := by
  unfold qcClaimHolds
  exact inferInstance

/-- A cell row of the concrete QC example: the mitochondrial gene first,
198 shared genes, then the two rare genes `g199`, `g200`. -/
def mkRow (mtv g199 g200 : Rat) : List Rat :=
  mtv :: (List.replicate 198 1 ++ [g199, g200])

/-- Concrete input refuting the literal QC claim: three cells over 201
genes.  Every cell has exactly 200 detected genes, so all pass
`filter_cells`; genes `g199` (2 cells) and `g200` (1 cell) are dropped
by `filter_genes`; cell 0 is mitochondria-heavy and is dropped by the
`pct_counts_mt < 5` slicing.  On the final matrix the two surviving
cells have only 199 detected genes and every surviving gene is detected
in only 2 cells. -/
def exC1 : AnnData Rat :=
  { X := [mkRow 100 1 0, mkRow 1 0 1, mkRow 1 1 0]
  , obs := List.replicate 3 {}
  , var := { name := "MT-1" } :: List.replicate 200 { name := "G" }
  , uns := [] }

/-- A one-cell example used to exercise the annotation step. -/
def ex2 : AnnData Rat :=
  { X := [[1]], obs := [{ leiden := some "2" }], var := [{ name := "A" }], uns := [] }

/-- A tiny example for the differential-expression frame property. -/
def ex8 : AnnData Rat :=
  { X := [[1]], obs := [{ leiden := some "0" }], var := [{ name := "A" }], uns := [] }

/-- A concrete t-test result. -/
def tRes0 : DEResult := { method := "t-test", names := [("0", ["A"])] }

/-- A concrete Wilcoxon result. -/
def wRes0 : DEResult := { method := "wilcoxon", names := [("0", ["A"])] }

/-- A two-gene example with one highly-variable gene. -/
def ex9 : AnnData Rat :=
  { X := [[1, 2]]
  , obs := [{}]
  , var := [ { name := "A", highly_variable := some true }
           , { name := "B", highly_variable := some false } ]
  , uns := [] }

/-- A one-entry real matrix used to exercise the scaling bound. -/
noncomputable def ex10 : AnnData Real :=
  { X := [[5]], obs := [{}], var := [{ name := "A" }], uns := [] }

/-- A concrete notebook implementation over state `Nat` whose QC stage
fails, used to exercise error propagation. -/
def impl0 : NotebookImpl Nat String :=
  { load := fun s => Except.ok (s + 1)
  , qc := fun _ => Except.error "empty result after filtering"
  , normalize := fun s => Except.ok s
  , featureSelect := fun s => Except.ok s
  , reduce := fun s => Except.ok s
  , cluster := fun s => Except.ok s
  , visualize := fun s => Except.ok s
  , rankGenes := fun s => Except.ok s
  , annotate := fun s => Except.ok s }

theorem zip_fst_snd {β γ : Type} : ∀ l : List (β × γ), (l.map Prod.fst).zip (l.map Prod.snd) = l
  | [] => rfl
  | p :: t => by simpa using zip_fst_snd t

theorem zip_self_map {β γ δ : Type} (f : β × γ → δ) :
    ∀ (l : List β) (m : List γ),
      l.zip ((l.zip m).map f) = (l.zip m).map (fun p => (p.1, f p))
  | [], _ => rfl
  | _ :: _, [] => rfl
  | x :: l, y :: m => by simpa using zip_self_map f l m

theorem keepCols_length {β : Type} :
    ∀ (mask : List Bool) (l : List β), l.length = mask.length →
      (keepCols mask l).length = countTrue mask := by
  intro mask
  induction mask with
  | nil =>
    intro l h
    simp only [List.length_nil] at h
    rw [List.length_eq_zero] at h
    subst h
    rfl
  | cons b ms ih =>
    intro l h
    cases l with
    | nil => simp at h
    | cons x t =>
      simp only [List.length_cons, Nat.succ.injEq] at h
      cases b with
      | true => simp [keepCols, countTrue, List.filter] at ih ⊢; exact ih t h
      | false => simp [keepCols, countTrue, List.filter] at ih ⊢; exact ih t h

theorem keepCols_length_le {β : Type} (mask : List Bool) (l : List β) :
    (keepCols mask l).length ≤ l.length := by
  calc (keepCols mask l).length
      ≤ (l.zip mask).length := by
        simp only [keepCols, List.length_map]
        exact List.length_filter_le _ _
    _ ≤ l.length := by rw [List.length_zip]; exact Nat.min_le_left _ _

theorem keepCols_map_self {β : Type} (p : β → Bool) :
    ∀ l : List β, keepCols (l.map p) l = l.filter p := by
  intro l
  induction l with
  | nil => rfl
  | cons x t ih =>
    cases hx : p x with
    | true => simp [keepCols, List.filter, hx] at ih ⊢; exact ih
    | false => simp [keepCols, List.filter, hx] at ih ⊢; exact ih

theorem mem_keepCols_map_zipWith {β γ : Type} (p : γ → Bool) (u : β → γ → β) :
    ∀ (cs : List γ) (l : List β) (x : β),
      x ∈ keepCols (cs.map p) (List.zipWith u l cs) → ∃ y c, x = u y c ∧ p c = true := by
  intro cs
  induction cs with
  | nil =>
    intro l x hx
    simp [keepCols] at hx
  | cons c cs ih =>
    intro l x hx
    cases l with
    | nil => simp [keepCols] at hx
    | cons y t =>
      cases hc : p c with
      | true =>
        simp only [List.map_cons, List.zipWith_cons_cons, keepCols, List.zip_cons_cons,
          hc, List.filter_cons_of_pos, List.map_cons, List.mem_cons] at hx
        rcases hx with hx | hx
        · exact ⟨y, c, hx, hc⟩
        · exact ih t x (by simpa [keepCols] using hx)
      | false =>
        simp only [List.map_cons, List.zipWith_cons_cons, keepCols, List.zip_cons_cons,
          hc, List.filter_cons_of_neg] at hx
        exact ih t x (by simpa [keepCols] using hx)

theorem sum_map_mul (c : Rat) : ∀ l : List Rat, (l.map (fun x => x * c)).sum = l.sum * c
  | [] => by simp
  | x :: t => by simp [sum_map_mul c t, add_mul]

theorem slice_zip {α : Type} (pred : Obs → Bool) (a : AnnData α) :
    (sliceCells pred a).X.zip (sliceCells pred a).obs
      = (a.X.zip a.obs).filter (fun p => pred p.2) := by
  simp only [sliceCells]
  exact zip_fst_snd _

theorem calcQC_zip (a : AnnData Rat) :
    (sc_pp_calculate_qc_metrics a).X.zip (sc_pp_calculate_qc_metrics a).obs
      = (a.X.zip a.obs).map (fun q => (q.1, mkQCObs a.var q.1 q.2)) := by
  simp only [sc_pp_calculate_qc_metrics]
  exact zip_self_map _ _ _

theorem qcStage_pair (a : AnnData Rat) (p : List Rat × Obs)
    (hp : p ∈ (qcStage a).X.zip (qcStage a).obs) :
    ∃ q : List Rat × Obs,
      p.1 = q.1 ∧ p.2 = mkQCObs (qcStage a).var q.1 q.2
        ∧ ngLt2500 p.2 = true ∧ pctLt5 p.2 = true := by
  have hp' : p ∈ ((((markMito (sc_pp_filter_genes 3 (sc_pp_filter_cells 200 a))).X.zip
      (markMito (sc_pp_filter_genes 3 (sc_pp_filter_cells 200 a))).obs).map
        (fun q => (q.1, mkQCObs (markMito (sc_pp_filter_genes 3 (sc_pp_filter_cells 200 a))).var q.1 q.2))).filter
          (fun q => ngLt2500 q.2)).filter (fun q => pctLt5 q.2) := by
    have h1 : (qcStage a).X.zip (qcStage a).obs
        = (((sc_pp_calculate_qc_metrics (markMito (sc_pp_filter_genes 3 (sc_pp_filter_cells 200 a)))).X.zip
            (sc_pp_calculate_qc_metrics (markMito (sc_pp_filter_genes 3 (sc_pp_filter_cells 200 a)))).obs).filter
              (fun q => ngLt2500 q.2)).filter (fun q => pctLt5 q.2) := by
      rw [show qcStage a = sliceCells pctLt5 (sliceCells ngLt2500
        (sc_pp_calculate_qc_metrics (markMito (sc_pp_filter_genes 3 (sc_pp_filter_cells 200 a))))) from rfl,
        slice_zip, slice_zip]
    rw [h1, calcQC_zip] at hp
    exact hp
  rw [List.mem_filter] at hp'
  obtain ⟨hp', hpct⟩ := hp'
  rw [List.mem_filter] at hp'
  obtain ⟨hp', hng⟩ := hp'
  rw [List.mem_map] at hp'
  obtain ⟨q, _, hq⟩ := hp'
  refine ⟨q, ?_, ?_, hng, hpct⟩
  · rw [← hq]
  · rw [← hq]
    rfl

theorem qc_row_facts (a : AnnData Rat) (p : List Rat × Obs)
    (hp : p ∈ (qcStage a).X.zip (qcStage a).obs) :
    countNonzero p.1 < 2500 ∧ p.1.sum ≠ 0
      ∧ 100 * mtSum (qcStage a).var p.1 / p.1.sum < 5 := by
  obtain ⟨q, hq1, hq2, hng, hpct⟩ := qcStage_pair a p hp
  rw [hq2] at hng hpct
  simp only [ngLt2500, mkQCObs] at hng
  by_cases h0 : q.1.sum = 0
  · exfalso
    simp [pctLt5, mkQCObs, h0] at hpct
  · simp only [pctLt5, mkQCObs, if_neg h0, decide_eq_true_eq] at hpct
    refine ⟨?_, ?_, ?_⟩
    · rw [hq1]; exact of_decide_eq_true hng
    · rw [hq1]; exact h0
    · rw [hq1]; exact hpct

theorem slice_row_pair {α : Type} (pred : Obs → Bool) (b : AnnData α) (r : List α)
    (hr : r ∈ (sliceCells pred b).X) :
    ∃ o, (r, o) ∈ (sliceCells pred b).X.zip (sliceCells pred b).obs := by
  simp only [sliceCells, List.mem_map] at hr
  obtain ⟨p, hp, hr⟩ := hr
  refine ⟨p.2, ?_⟩
  rw [slice_zip]
  rw [← hr]
  exact hp

/-- C1 counterexample: on the concrete input `exC1` the QC stage, as the
specification states it, fails — after the complete stage the retained
cells have only 199 detected genes (not ≥ 200) and every retained gene
is detected in only 2 cells (not ≥ 3), because the later cell slicing
and the earlier gene filtering change both counts. -/
theorem qc_claim_refuted : ¬ qcClaimHolds exC1 := by
  with_unfolding_all decide

/-- C1 (amended): each QC bound holds at the point its filter is
applied: after `filter_cells(min_genes=200)` every retained cell has at
least 200 detected genes over the then-current genes; after
`filter_genes(min_cells=3)` every retained gene carries a recorded
detection count of at least 3 cells; and on the final matrix of the QC
stage every retained cell has fewer than 2500 detected genes and a
recomputed mitochondrial percentage below 5. -/
theorem qc_bounds_amended (a : AnnData Rat) :
    (∀ r ∈ (sc_pp_filter_cells 200 a).X, 200 ≤ countNonzero r)
  ∧ (∀ v ∈ (sc_pp_filter_genes 3 (sc_pp_filter_cells 200 a)).var,
      ∃ c, v.n_cells = some c ∧ 3 ≤ c)
  ∧ (∀ p ∈ (qcStage a).X.zip (qcStage a).obs,
      countNonzero p.1 < 2500 ∧ p.1.sum ≠ 0
        ∧ 100 * mtSum (qcStage a).var p.1 / p.1.sum < 5) := by
  refine ⟨?_, ?_, ?_⟩
  · intro r hr
    simp only [sc_pp_filter_cells, List.mem_map, List.mem_filter] at hr
    obtain ⟨p, ⟨_, hpred⟩, rfl⟩ := hr
    exact of_decide_eq_true hpred
  · intro v hv
    simp only [sc_pp_filter_genes] at hv
    obtain ⟨y, c, rfl, hc⟩ :=
      mem_keepCols_map_zipWith (fun c => decide (3 ≤ c))
        (fun (v : Var) (c : Nat) => { v with n_cells := some c }) _ _ _ hv
    exact ⟨c, rfl, of_decide_eq_true hc⟩
  · intro p hp
    exact qc_row_facts a p hp

/-- Witness for the amended QC claim, at the concrete input `exC1`. -/
theorem qc_bounds_amended_witness :
    200 ≤ countNonzero (mkRow 100 1 0)
  ∧ (∃ c, (⟨"MT-1", none, some 3, none⟩ : Var).n_cells = some c ∧ 3 ≤ c)
  ∧ (countNonzero ((1 : Rat) :: List.replicate 198 1) < 2500
      ∧ ((1 : Rat) :: List.replicate 198 1).sum ≠ 0
      ∧ 100 * mtSum (qcStage exC1).var ((1 : Rat) :: List.replicate 198 1)
          / ((1 : Rat) :: List.replicate 198 1).sum < 5) := by
  refine ⟨?_, ?_, ?_⟩
  · exact (qc_bounds_amended exC1).1 (mkRow 100 1 0) (by with_unfolding_all decide)
  · exact (qc_bounds_amended exC1).2.1 ⟨"MT-1", none, some 3, none⟩ (by with_unfolding_all decide)
  · exact (qc_bounds_amended exC1).2.2
      (((1 : Rat) :: List.replicate 198 1),
        ⟨some 200, some 199, some 199, some (100 / 199), none, none⟩)
      (by with_unfolding_all decide)

/-- C3: the normalization stage applies `normalize_total(target_sum=1e4)`
first and `log1p` second, and between the two — after the rescaling and
before the log transform — every cell of the QC-filtered matrix has
total count exactly 10000.  (Every cell surviving the QC stage has a
defined mitochondrial percentage and hence a nonzero total, so the
rescaling applies to every row.) -/
theorem normalization_order_and_total (a : AnnData Rat) :
    normalizationStage (qcStage a)
      = sc_pp_log1p (sc_pp_normalize_total 10000 (qcStage a))
  ∧ ∀ r ∈ (sc_pp_normalize_total 10000 (qcStage a)).X, r.sum = 10000 := by
  refine ⟨rfl, ?_⟩
  intro r hr
  simp only [sc_pp_normalize_total, List.mem_map] at hr
  obtain ⟨r₀, hr₀, rfl⟩ := hr
  obtain ⟨o, ho⟩ := slice_row_pair pctLt5 _ r₀ hr₀
  have hs : r₀.sum ≠ 0 := (qc_row_facts a (r₀, o) ho).2.1
  simp only [normalizeRow, if_neg hs]
  rw [sum_map_mul, mul_comm, div_mul_cancel₀ _ hs]

/-- Witness for the normalization-total claim, at the concrete input `exC1`. -/
theorem normalization_total_witness :
    (normalizeRow 10000 ((1 : Rat) :: List.replicate 198 1)).sum = 10000 :=
  (normalization_order_and_total exC1).2
    (normalizeRow 10000 ((1 : Rat) :: List.replicate 198 1))
    (List.mem_map_of_mem (normalizeRow 10000) (by with_unfolding_all decide))

theorem wf_filter_cells (n : Nat) (a : AnnData Rat) (hw : wellFormed a) :
    wellFormed (sc_pp_filter_cells n a) := by
  constructor
  · simp [sc_pp_filter_cells]
  · intro r hr
    simp only [sc_pp_filter_cells, List.mem_map] at hr
    obtain ⟨p, hp, rfl⟩ := hr
    exact hw.2 p.1 (List.of_mem_zip (List.mem_filter.1 hp).1).1

theorem wf_filter_genes (n : Nat) (a : AnnData Rat) (hw : wellFormed a) :
    wellFormed (sc_pp_filter_genes n a) := by
  have hcl : (geneCounts a).length = a.var.length := by simp [geneCounts]
  have hml : ((geneCounts a).map (fun c => decide (n ≤ c))).length = a.var.length := by
    simp [hcl]
  have hv : (sc_pp_filter_genes n a).var.length
      = countTrue ((geneCounts a).map (fun c => decide (n ≤ c))) := by
    rw [show (sc_pp_filter_genes n a).var
        = keepCols ((geneCounts a).map (fun c => decide (n ≤ c)))
            (List.zipWith (fun v c => { v with n_cells := some c }) a.var (geneCounts a)) from rfl]
    exact keepCols_length _ _ (by simp [List.length_zipWith, hcl, hml])
  constructor
  · simp [sc_pp_filter_genes, hw.1]
  · intro r hr
    simp only [sc_pp_filter_genes, List.mem_map] at hr
    obtain ⟨r₀, hr₀, rfl⟩ := hr
    rw [hv, keepCols_length _ _ (by rw [hw.2 r₀ hr₀, ← hml])]

theorem wf_markMito (a : AnnData Rat) (hw : wellFormed a) : wellFormed (markMito a) := by
  constructor
  · exact hw.1
  · intro r hr
    simp only [markMito, List.length_map]
    exact hw.2 r hr

theorem wf_calcQC (a : AnnData Rat) (hw : wellFormed a) :
    wellFormed (sc_pp_calculate_qc_metrics a) := by
  constructor
  · simp [sc_pp_calculate_qc_metrics, List.length_zip, hw.1, Nat.min_self]
  · intro r hr
    exact hw.2 r hr

theorem wf_sliceCells {α : Type} (pred : Obs → Bool) (a : AnnData α) (hw : wellFormed a) :
    wellFormed (sliceCells pred a) := by
  constructor
  · simp [sliceCells]
  · intro r hr
    simp only [sliceCells, List.mem_map] at hr
    obtain ⟨p, hp, rfl⟩ := hr
    exact hw.2 p.1 (List.of_mem_zip (List.mem_filter.1 hp).1).1

theorem normalizeRow_length (t : Rat) (r : List Rat) : (normalizeRow t r).length = r.length := by
  unfold normalizeRow
  split
  · rfl
  · simp

theorem wf_normalize (t : Rat) (a : AnnData Rat) (hw : wellFormed a) :
    wellFormed (sc_pp_normalize_total t a) := by
  constructor
  · simp [sc_pp_normalize_total, hw.1]
  · intro r hr
    simp only [sc_pp_normalize_total, List.mem_map] at hr
    obtain ⟨r₀, hr₀, rfl⟩ := hr
    rw [normalizeRow_length]
    exact hw.2 r₀ hr₀

theorem wf_log1p (a : AnnData Rat) (hw : wellFormed a) : wellFormed (sc_pp_log1p a) := by
  constructor
  · simp [sc_pp_log1p, hw.1]
  · intro r hr
    simp only [sc_pp_log1p, List.mem_map] at hr
    obtain ⟨r₀, hr₀, rfl⟩ := hr
    simp only [List.length_map]
    exact hw.2 r₀ hr₀

theorem wf_hvflags {α : Type} (flags : Nat → Bool) (a : AnnData α) (hw : wellFormed a) :
    wellFormed (sc_pp_highly_variable_genes flags a) := by
  constructor
  · exact hw.1
  · intro r hr
    simp only [sc_pp_highly_variable_genes, List.length_map, List.enum_length]
    exact hw.2 r hr

theorem wf_hvgSlice {α : Type} (a : AnnData α) (hw : wellFormed a) :
    wellFormed (hvgSlice a) := by
  have hml : (hvMask a).length = a.var.length := by simp [hvMask]
  have hv : (hvgSlice a).var.length = countTrue (hvMask a) := by
    rw [show (hvgSlice a).var = keepCols (hvMask a) a.var from rfl]
    exact keepCols_length _ _ hml.symm
  constructor
  · simp [hvgSlice, hw.1]
  · intro r hr
    simp only [hvgSlice, List.mem_map] at hr
    obtain ⟨r₀, hr₀, rfl⟩ := hr
    rw [hv, keepCols_length _ _ (by rw [hw.2 r₀ hr₀, ← hml])]

theorem wf_scale (m : Real) (a : AnnData Real) (hw : wellFormed a) :
    wellFormed (sc_pp_scale m a) := by
  constructor
  · simp [sc_pp_scale, hw.1]
  · intro r hr
    simp only [sc_pp_scale, List.mem_map] at hr
    obtain ⟨r₀, hr₀, rfl⟩ := hr
    simp only [List.length_map, List.enum_length]
    exact hw.2 r₀ hr₀

theorem wf_leiden {α : Type} (lab : Nat → String) (a : AnnData α) (hw : wellFormed a) :
    wellFormed (sc_tl_leiden lab a) := by
  constructor
  · simp [sc_tl_leiden, List.length_map, List.enum_length, hw.1]
  · intro r hr
    exact hw.2 r hr

theorem wf_rank {α : Type} (k : String) (res : DEResult) (a : AnnData α) (hw : wellFormed a) :
    wellFormed (sc_tl_rank_genes_groups k res a) := hw

theorem wf_annotate {α : Type} (a : AnnData α) (hw : wellFormed a) :
    wellFormed (annotateClusters a) := by
  constructor
  · simp [annotateClusters, hw.1]
  · intro r hr
    exact hw.2 r hr

theorem slice_X_le {α : Type} (pred : Obs → Bool) (a : AnnData α) :
    (sliceCells pred a).X.length ≤ a.X.length := by
  simp only [sliceCells, List.length_map]
  calc ((a.X.zip a.obs).filter (fun p => pred p.2)).length
      ≤ (a.X.zip a.obs).length := List.length_filter_le _ _
    _ ≤ a.X.length := by rw [List.length_zip]; exact Nat.min_le_left _ _

theorem filter_cells_X_le (n : Nat) (a : AnnData Rat) :
    (sc_pp_filter_cells n a).X.length ≤ a.X.length := by
  simp only [sc_pp_filter_cells, List.length_map]
  calc ((a.X.zip a.obs).filter (fun p => decide (n ≤ countNonzero p.1))).length
      ≤ (a.X.zip a.obs).length := List.length_filter_le _ _
    _ ≤ a.X.length := by rw [List.length_zip]; exact Nat.min_le_left _ _

theorem stage1_X_le (a : AnnData Rat) : (stage1 a).X.length ≤ a.X.length := by
  have h4 : (sc_pp_calculate_qc_metrics (markMito (sc_pp_filter_genes 3
      (sc_pp_filter_cells 200 a)))).X.length = (sc_pp_filter_cells 200 a).X.length := by
    simp [sc_pp_calculate_qc_metrics, markMito, sc_pp_filter_genes, List.length_map]
  exact le_trans (slice_X_le pctLt5 _)
    (le_trans (slice_X_le ngLt2500 _) (by rw [h4]; exact filter_cells_X_le 200 a))

theorem hvgSlice_var_le {α : Type} (a : AnnData α) :
    (hvgSlice a).var.length ≤ a.var.length := by
  rw [show (hvgSlice a).var = keepCols (hvMask a) a.var from rfl]
  exact keepCols_length_le _ _

theorem hvflags_var_len {α : Type} (flags : Nat → Bool) (a : AnnData α) :
    (sc_pp_highly_variable_genes flags a).var.length = a.var.length := by
  simp [sc_pp_highly_variable_genes, List.length_map, List.enum_length]

theorem stage4_var_le (flags : Nat → Bool) (a : AnnData Rat) :
    (stage4 flags a).var.length ≤ (stage3 a).var.length := by
  have h := hvgSlice_var_le (sc_pp_highly_variable_genes flags (stage3 a))
  rwa [hvflags_var_len] at h

/-- C4: the structural invariant — one `obs` row per matrix row, one
`var` row per matrix column — holds after every stage of the pipeline
when it holds for the loaded matrix, and the filtering stages shrink the
matrix and its annotations consistently (never growing the sliced
axis). -/
theorem pipeline_dims_invariant (a : AnnData Rat) (flags : Nat → Bool) (lab : Nat → String)
    (tR wR : DEResult) (hw : wellFormed a) :
    wellFormed (stage1 a) ∧ wellFormed (stage2 a) ∧ wellFormed (stage3 a)
  ∧ wellFormed (stage4 flags a) ∧ wellFormed (stage5 flags a)
  ∧ wellFormed (stage6 flags lab a)
  ∧ wellFormed (stage7 flags lab tR wR a)
  ∧ wellFormed (stage8 flags lab tR wR a)
  ∧ (stage1 a).X.length ≤ a.X.length
  ∧ (stage4 flags a).var.length ≤ (stage3 a).var.length := by
  have h1 : wellFormed (stage1 a) :=
    wf_sliceCells _ _ (wf_sliceCells _ _ (wf_calcQC _ (wf_markMito _
      (wf_filter_genes 3 _ (wf_filter_cells 200 a hw)))))
  have h2 : wellFormed (stage2 a) := wf_normalize _ _ h1
  have h3 : wellFormed (stage3 a) := wf_log1p _ h2
  have h4 : wellFormed (stage4 flags a) := wf_hvgSlice _ (wf_hvflags flags _ h3)
  have h5 : wellFormed (stage5 flags a) := wf_scale _ _ h4
  have h6 : wellFormed (stage6 flags lab a) := wf_leiden lab _ h5
  have h7 : wellFormed (stage7 flags lab tR wR a) := wf_rank _ _ _ (wf_rank _ _ _ h6)
  have h8 : wellFormed (stage8 flags lab tR wR a) := wf_annotate _ h7
  exact ⟨h1, h2, h3, h4, h5, h6, h7, h8, stage1_X_le a, stage4_var_le flags a⟩

/-- Witness for the dimension invariant, at the concrete input `exC1`. -/
theorem pipeline_dims_witness :
    wellFormed (stage1 exC1) ∧ wellFormed (stage2 exC1) ∧ wellFormed (stage3 exC1)
  ∧ wellFormed (stage4 (fun _ => true) exC1) ∧ wellFormed (stage5 (fun _ => true) exC1)
  ∧ wellFormed (stage6 (fun _ => true) (fun _ => "0") exC1)
  ∧ wellFormed (stage7 (fun _ => true) (fun _ => "0") tRes0 wRes0 exC1)
  ∧ wellFormed (stage8 (fun _ => true) (fun _ => "0") tRes0 wRes0 exC1)
  ∧ (stage1 exC1).X.length ≤ exC1.X.length
  ∧ (stage4 (fun _ => true) exC1).var.length ≤ (stage3 exC1).var.length :=
  pipeline_dims_invariant exC1 (fun _ => true) (fun _ => "0") tRes0 wRes0
    (by with_unfolding_all decide)

/-- C2: the cluster-to-cell-type derivation is a direct key lookup — a
key present in the hand-authored mapping yields exactly its mapped
value, a key absent from it yields the missing value `none` (never a
valid label), each observation's derived `cell_type` is the lookup of
its own cluster identifier, and the five clusters `'0'..'4'` yield
exactly the five listed labels. -/
theorem cluster_lookup_spec :
    (∀ s v, (s, v) ∈ cluster_annotations → annLookup s = some v)
  ∧ (∀ s : String, s ∉ cluster_annotations.map Prod.fst → annLookup s = none)
  ∧ (∀ (α : Type) (a : AnnData α) (i : Nat) (o : Obs), a.obs[i]? = some o →
      (annotateClusters a).obs[i]?
        = some { o with cell_type := o.leiden.bind annLookup })
  ∧ List.map annLookup ["0", "1", "2", "3", "4"]
      = [some "Naive T cells", some "Memory T cells", some "B cells",
          some "NK cells", some "Monocytes"] := by
  refine ⟨?_, ?_, ?_, by decide⟩
  · intro s v h
    simp only [cluster_annotations, List.mem_cons, List.mem_singleton,
      Prod.mk.injEq, List.not_mem_nil, or_false] at h
    rcases h with ⟨rfl, rfl⟩ | ⟨rfl, rfl⟩ | ⟨rfl, rfl⟩ | ⟨rfl, rfl⟩ | ⟨rfl, rfl⟩ <;> decide
  · intro s hs
    simp only [cluster_annotations, List.map_cons, List.map_nil, List.mem_cons,
      List.not_mem_nil, or_false, not_or] at hs
    obtain ⟨h0, h1, h2, h3, h4⟩ := hs
    simp [annLookup, cluster_annotations, List.lookup,
      beq_eq_false_iff_ne.mpr h0, beq_eq_false_iff_ne.mpr h1, beq_eq_false_iff_ne.mpr h2,
      beq_eq_false_iff_ne.mpr h3, beq_eq_false_iff_ne.mpr h4]
  · intro α a i o h
    simp [annotateClusters, List.getElem?_map, h]

/-- Witness for the annotation-lookup claim, at concrete keys and at the
concrete one-cell input `ex2`. -/
theorem cluster_lookup_witness :
    annLookup "0" = some "Naive T cells"
  ∧ annLookup "7" = none
  ∧ (annotateClusters ex2).obs[0]?
      = some { leiden := some "2", cell_type := some "B cells" } := by
  refine ⟨?_, ?_, ?_⟩
  · exact cluster_lookup_spec.1 "0" "Naive T cells" (by decide)
  · exact cluster_lookup_spec.2.1 "7" (by decide)
  · exact cluster_lookup_spec.2.2.1 Rat ex2 0 { leiden := some "2" } rfl

theorem runSteps_append {σ ε : Type} :
    ∀ (l₁ l₂ : List (σ → Except ε σ)) (s : σ),
      runSteps (l₁ ++ l₂) s
        = match runSteps l₁ s with
          | Except.ok s' => runSteps l₂ s'
          | Except.error e => Except.error e := by
  intro l₁
  induction l₁ with
  | nil => intro l₂ s; rfl
  | cons f fs ih =>
    intro l₂ s
    simp only [List.cons_append, runSteps]
    cases f s with
    | error e => rfl
    | ok s' => exact ih l₂ s'

/-- C7: the notebook has no error handling of its own — it is a plain
straight-line sequence of library calls, so if the calls before stage
`f` succeed and `f` raises error `e`, the whole notebook run terminates
with exactly that error: nothing is caught, retried, recovered, or
validated around any stage. -/
theorem notebook_error_propagation {σ ε : Type} (m : NotebookImpl σ ε)
    (pre post : List (σ → Except ε σ)) (f : σ → Except ε σ) (s s' : σ) (e : ε)
    (hsplit : notebookSteps m = pre ++ f :: post)
    (hpre : runSteps pre s = Except.ok s')
    (herr : f s' = Except.error e) :
    notebookRun m s = Except.error e := by
  unfold notebookRun
  rw [hsplit, runSteps_append, hpre]
  simp only [runSteps, herr]

/-- Witness for error propagation: a concrete notebook whose QC stage
fails after a successful load. -/
theorem notebook_error_witness :
    notebookRun impl0 0 = Except.error "empty result after filtering" :=
  notebook_error_propagation impl0 [impl0.load]
    [impl0.normalize, impl0.featureSelect, impl0.reduce, impl0.cluster,
      impl0.visualize, impl0.rankGenes, impl0.annotate]
    impl0.qc 0 1 "empty result after filtering" rfl rfl rfl

theorem lookup_unsSet_self (k : String) (v : DEResult) :
    ∀ l : List (String × DEResult), (unsSet k v l).lookup k = some v := by
  intro l
  induction l with
  | nil => simp [unsSet, List.lookup]
  | cons p t ih =>
    obtain ⟨k₀, v₀⟩ := p
    by_cases h : k₀ = k
    · simp [unsSet, h, List.lookup]
    · simp [unsSet, h, List.lookup, beq_eq_false_iff_ne.mpr (Ne.symm h), ih]

theorem lookup_unsSet_ne (k : String) (v : DEResult) (k' : String) (h : k' ≠ k) :
    ∀ l : List (String × DEResult), (unsSet k v l).lookup k' = l.lookup k' := by
  intro l
  induction l with
  | nil => simp [unsSet, List.lookup, beq_eq_false_iff_ne.mpr h]
  | cons p t ih =>
    obtain ⟨k₀, v₀⟩ := p
    by_cases h0 : k₀ = k
    · subst h0
      simp [unsSet, List.lookup, beq_eq_false_iff_ne.mpr h]
    · cases hb : (k' == k₀) with
      | true => simp [unsSet, h0, List.lookup, hb]
      | false => simp [unsSet, h0, List.lookup, hb, ih]

/-- C8: the second differential-expression call, with
`key_added='wilcoxon_rank_genes_groups'`, stores its result under that
new key and changes nothing else: the matrix, both metadata tables, the
earlier t-test result under the default `rank_genes_groups` key, and
every other `uns` entry stay exactly as they were. -/
theorem wilcoxon_frame_effect {α : Type} (a : AnnData α) (tR wR : DEResult) (k : String)
    (hk : k ≠ "wilcoxon_rank_genes_groups") :
    (sc_tl_rank_genes_groups "wilcoxon_rank_genes_groups" wR
        (sc_tl_rank_genes_groups "rank_genes_groups" tR a)).X
      = (sc_tl_rank_genes_groups "rank_genes_groups" tR a).X
  ∧ (sc_tl_rank_genes_groups "wilcoxon_rank_genes_groups" wR
        (sc_tl_rank_genes_groups "rank_genes_groups" tR a)).obs
      = (sc_tl_rank_genes_groups "rank_genes_groups" tR a).obs
  ∧ (sc_tl_rank_genes_groups "wilcoxon_rank_genes_groups" wR
        (sc_tl_rank_genes_groups "rank_genes_groups" tR a)).var
      = (sc_tl_rank_genes_groups "rank_genes_groups" tR a).var
  ∧ (sc_tl_rank_genes_groups "wilcoxon_rank_genes_groups" wR
        (sc_tl_rank_genes_groups "rank_genes_groups" tR a)).uns.lookup
          "wilcoxon_rank_genes_groups" = some wR
  ∧ (sc_tl_rank_genes_groups "wilcoxon_rank_genes_groups" wR
        (sc_tl_rank_genes_groups "rank_genes_groups" tR a)).uns.lookup
          "rank_genes_groups" = some tR
  ∧ (sc_tl_rank_genes_groups "wilcoxon_rank_genes_groups" wR
        (sc_tl_rank_genes_groups "rank_genes_groups" tR a)).uns.lookup k
      = (sc_tl_rank_genes_groups "rank_genes_groups" tR a).uns.lookup k := by
  refine ⟨rfl, rfl, rfl, ?_, ?_, ?_⟩
  · exact lookup_unsSet_self _ _ _
  · rw [show (sc_tl_rank_genes_groups "wilcoxon_rank_genes_groups" wR
        (sc_tl_rank_genes_groups "rank_genes_groups" tR a)).uns
      = unsSet "wilcoxon_rank_genes_groups" wR (unsSet "rank_genes_groups" tR a.uns)
        from rfl]
    rw [lookup_unsSet_ne _ _ _ (by decide)]
    exact lookup_unsSet_self _ _ _
  · rw [show (sc_tl_rank_genes_groups "wilcoxon_rank_genes_groups" wR
        (sc_tl_rank_genes_groups "rank_genes_groups" tR a)).uns
      = unsSet "wilcoxon_rank_genes_groups" wR (unsSet "rank_genes_groups" tR a.uns)
        from rfl]
    rw [lookup_unsSet_ne _ _ _ hk]
    rfl

/-- Witness for the differential-expression frame effect, at the
concrete input `ex8` with concrete t-test and Wilcoxon results. -/
theorem wilcoxon_frame_witness :
    (sc_tl_rank_genes_groups "wilcoxon_rank_genes_groups" wRes0
        (sc_tl_rank_genes_groups "rank_genes_groups" tRes0 ex8)).uns.lookup
          "rank_genes_groups" = some tRes0
  ∧ (sc_tl_rank_genes_groups "wilcoxon_rank_genes_groups" wRes0
        (sc_tl_rank_genes_groups "rank_genes_groups" tRes0 ex8)).uns.lookup "foo"
      = (sc_tl_rank_genes_groups "rank_genes_groups" tRes0 ex8).uns.lookup "foo" :=
  ⟨(wilcoxon_frame_effect ex8 tRes0 wRes0 "foo" (by decide)).2.2.2.2.1,
    (wilcoxon_frame_effect ex8 tRes0 wRes0 "foo" (by decide)).2.2.2.2.2⟩

/-- C9: the feature-selection slicing keeps exactly the genes flagged
highly variable — every retained gene has its flag set to `true`, the
gene count does not increase, and the observation axis (matrix row count
and the whole `obs` table) is untouched. -/
theorem hvg_slice_frame {α : Type} (a : AnnData α) :
    (∀ v ∈ (hvgSlice a).var, v.highly_variable = some true)
  ∧ (hvgSlice a).var.length ≤ a.var.length
  ∧ (hvgSlice a).X.length = a.X.length
  ∧ (hvgSlice a).obs = a.obs := by
  refine ⟨?_, hvgSlice_var_le a, by simp [hvgSlice], rfl⟩
  intro v hv
  have hfil : (hvgSlice a).var
      = a.var.filter (fun v => decide (v.highly_variable = some true)) := by
    rw [show (hvgSlice a).var = keepCols (hvMask a) a.var from rfl, hvMask,
      keepCols_map_self]
  rw [hfil] at hv
  exact of_decide_eq_true (List.mem_filter.mp hv).2

/-- Witness for the feature-selection slicing, at the concrete two-gene
input `ex9`. -/
theorem hvg_slice_witness :
    (⟨"A", none, none, some true⟩ : Var).highly_variable = some true :=
  (hvg_slice_frame ex9).1 ⟨"A", none, none, some true⟩ (by decide)

/-- C10: after `sc.pp.scale(adata, max_value=10)` every entry of the
expression matrix is at most 10 — the clipping step caps every scaled
value at the `max_value` bound, so the matrix handed to PCA is bounded
above by 10. -/
theorem scale_clip_bound (a : AnnData Real) (r : List Real) (x : Real)
    (hr : r ∈ (sc_pp_scale 10 a).X) (hx : x ∈ r) : x ≤ 10 := by
  simp only [sc_pp_scale, List.mem_map] at hr
  obtain ⟨r₀, _, rfl⟩ := hr
  simp only [List.mem_map] at hx
  obtain ⟨p, _, rfl⟩ := hx
  unfold scaleEntry
  split
  · exact le_refl 10
  · next h => exact le_of_not_lt h

/-- Witness for the scaling bound, at the concrete one-entry input `ex10`. -/
theorem scale_clip_witness : scaleEntry (column ex10.X 0) 10 5 ≤ 10 :=
  scale_clip_bound ex10 [scaleEntry (column ex10.X 0) 10 5]
    (scaleEntry (column ex10.X 0) 10 5) (List.Mem.head _) (List.Mem.head _)
